import Mathlib

/-!
Verification development for the taro address book and event lifecycle store
(`tarodb/addrs.go`).  The Go code drives a SQL backend through the sqlc-style
`AddrBook` interface; the interface and the `addrs` table schema are part of the
sources, while the generated SQL bodies are not, so those operations are
modelled from the specification (each such definition is marked
`Modelled from the spec:` in its doc comment).  Byte blobs are lists of
naturals, machine integers are `Int`/`Nat` (no claim here depends on overflow
behaviour of the numeric casts, which all round-trip), and `time.Time` is
modelled by its seconds/nanoseconds pair.
-/

namespace Taro

/-- Little-endian base-256 encoding of a natural, padded to `n` bytes.
Models serializing a fixed-width integer or hash into a byte blob. -/
def natToBytesLE : Nat → Nat → List Nat
  | 0, _ => []
  | n + 1, x => (x % 256) :: natToBytesLE n (x / 256)

/-- Decoding of a little-endian base-256 byte blob back to a natural. -/
def bytesToNatLE : List Nat → Nat
  | [] => 0
  | b :: bs => b + 256 * bytesToNatLE bs

/-- Model of Go `time.Time`: seconds and nanoseconds of the unix moment.
The zero `time.Time` sits at `-62135596800` unix seconds (year 1). -/
structure GoTime where
  sec : Int
  nsec : Nat
  deriving DecidableEq, Repr

/-- The zero value of `time.Time` (what Go `t.IsZero()` compares against). -/
def GoTime.zero : GoTime := ⟨-62135596800, 0⟩

/-- Model of Go `t.IsZero()`. -/
def GoTime.isZero (t : GoTime) : Bool := t = GoTime.zero

/-- Model of Go `time.Unix(sec, 0)`. -/
def GoTime.unix (s : Int) : GoTime := ⟨s, 0⟩

/-- The sentinel `time.Unix(math.MaxInt64, 0)` used by `QueryAddrs`,
viewed through its unix seconds. -/
def maxInt64 : Int := 2 ^ 63 - 1

/-- Model of `btcec.PublicKey`: the x coordinate as a natural plus the parity
of the y coordinate (what a 33-byte compressed encoding carries and a 32-byte
x-only schnorr encoding drops). -/
structure PubKey where
  x : Nat
  odd : Bool
  deriving DecidableEq, Repr

/-- A key the external elliptic-curve library would accept: nonzero x
coordinate that fits in 32 bytes.  (The real library also checks the curve
equation; no claim depends on the finer distinction.) -/
def PubKey.validB (k : PubKey) : Bool := decide (0 < k.x ∧ k.x < 2 ^ 256)

/-- Model of `btcec.PublicKey.SerializeCompressed`: a parity tag byte
(2 even / 3 odd) followed by the 32 x-coordinate bytes. -/
def serializeCompressed (k : PubKey) : List Nat :=
  (if k.odd then 3 else 2) :: natToBytesLE 32 k.x

/-- Model of `schnorr.SerializePubKey`: the 32-byte x-only encoding. -/
def schnorrSerialize (k : PubKey) : List Nat := natToBytesLE 32 k.x

/-- Errors surfaced by the store, following the spec's taxonomy.
`wrapped` models `fmt.Errorf` with `%w`: `errors.Is` still sees the root. -/
inductive Err where
  | noRows
  | errNoAddr
  | constraintViolation
  | decodeError
  | wrapped (e : Err)
  deriving DecidableEq, Repr

/-- Unwrap an error chain down to its root cause (Go `errors.Is`). -/
def Err.root : Err → Err
  | .wrapped e => e.root
  | e => e

/-- View an `Except` as a sum, to transport decidable equality. -/
def exceptToSum : Except ε α → Sum ε α
  | .error e => .inl e
  | .ok a => .inr a

instance [DecidableEq ε] [DecidableEq α] : DecidableEq (Except ε α) :=
  fun a b =>
    decidable_of_iff (exceptToSum a = exceptToSum b)
      (by cases a <;> cases b <;> simp [exceptToSum])

/-- Model of `btcec.ParsePubKey` on a compressed 33-byte blob. -/
def parsePubKey (b : List Nat) : Except Err PubKey :=
  match b with
  | t :: rest =>
    if (t = 2 ∨ t = 3) ∧ rest.length = 32 ∧ 0 < bytesToNatLE rest then
      .ok ⟨bytesToNatLE rest, t = 3⟩
    else
      .error .decodeError
  | [] => .error .decodeError

/-- Model of `schnorr.ParsePubKey` on a 32-byte x-only blob: the parsed key
always carries even parity. -/
def schnorrParse (b : List Nat) : Except Err PubKey :=
  if b.length = 32 ∧ 0 < bytesToNatLE b then
    .ok ⟨bytesToNatLE b, false⟩
  else
    .error .decodeError

/-- Model of `chainhash.NewHash`: accepts exactly 32 bytes. -/
def newHash (b : List Nat) : Except Err Nat :=
  if b.length = 32 then .ok (bytesToNatLE b) else .error .decodeError

/-- Model of `wire.OutPoint`: a 32-byte transaction hash and an output index. -/
structure OutPoint where
  hash : Nat
  index : Nat
  deriving DecidableEq, Repr

/-- Model of `encodeOutpoint`: the canonical 36-byte wire encoding. -/
def encodeOutpoint (op : OutPoint) : List Nat :=
  natToBytesLE 32 op.hash ++ natToBytesLE 4 op.index

/-- Model of `asset.Genesis` (external to this package): the genesis outpoint,
the asset type tag, and the rest of the genesis information collapsed into one
opaque value.  `addr.FirstPrevOut` and `addr.Type` are the promoted fields of
the embedded genesis. -/
structure Genesis where
  firstPrevOut : OutPoint
  assetType : Int
  info : Nat
  deriving DecidableEq, Repr

/-- Model of `keychain.KeyLocator` plus public key (`keychain.KeyDescriptor`). -/
structure KeyDescriptor where
  family : Int
  index : Int
  pubKey : PubKey
  deriving DecidableEq, Repr

/-- Model of `asset.TweakedScriptKey`. -/
structure TweakedScriptKey where
  rawKey : KeyDescriptor
  tweak : List Nat
  deriving DecidableEq, Repr

/-- Model of `address.Taro` (external to this package): the embedded genesis
provides `FirstPrevOut` and `Type`. -/
structure TaroAddr where
  version : Int
  genesis : Genesis
  familyKey : Option PubKey
  scriptKey : PubKey
  internalKey : PubKey
  amount : Nat
  chainParams : Nat
  deriving DecidableEq, Repr

/-- Model of `address.AddrWithKeyInfo`. -/
structure AddrWithKeyInfo where
  taro : TaroAddr
  scriptKeyTweak : TweakedScriptKey
  internalKeyDesc : KeyDescriptor
  taprootOutputKey : PubKey
  creationTime : GoTime
  managedAfter : GoTime
  deriving DecidableEq, Repr

/-- Model of `lnrpc.OutputDetail`: the per-output information of a wallet
transaction used by the event engine. -/
structure OutputDetail where
  amount : Int
  isOurAddress : Bool
  deriving DecidableEq, Repr

/-- Model of `lndclient.Transaction`: raw serialized bytes, the transaction
hash, per-output details and confirmation metadata. -/
structure WalletTx where
  txHash : Nat
  rawBytes : List Nat
  outputDetails : List OutputDetail
  confirmations : Int
  blockHash : Nat
  blockHeight : Int
  deriving DecidableEq, Repr

/-- Model of `address.Event` as built by `fetchEvent`. -/
structure AddrEvent where
  id : Nat
  creationTime : GoTime
  addr : AddrWithKeyInfo
  status : Int
  outpoint : OutPoint
  amt : Int
  internalKey : PubKey
  tapscriptSibling : Option (List Nat)
  confirmationHeight : Int
  hasProof : Bool
  deriving DecidableEq, Repr

/-- Modelled from the spec: the `address.Status` enum is the ordered set
TransactionDetected < TransactionConfirmed < Completed with codes 0, 1, 2. -/
def StatusTransactionDetected : Int := 0

/-- Modelled from the spec: the confirmed status code. -/
def StatusTransactionConfirmed : Int := 1

/-- Modelled from the spec: the completed status code. -/
def StatusCompleted : Int := 2

/-- Modelled from the spec: the storage-level CHECK constraint accepts exactly
the three valid status codes. -/
def isValidStatus (s : Int) : Bool :=
  s = StatusTransactionDetected ∨ s = StatusTransactionConfirmed ∨
    s = StatusCompleted

/-! ## Database rows

One structure per table of the relational schema.  The `addrs` table follows
the schema file in the sources verbatim; the other tables are modelled from
the spec's data model (§3) and persisted-layout description (§6). -/

/-- Row of the `internal_keys` table. -/
structure InternalKeyRow where
  rawKey : List Nat
  keyFamily : Int
  keyIndex : Int
  deriving DecidableEq, Repr

/-- Row of the `script_keys` table. -/
structure ScriptKeyRow where
  internalKeyID : Nat
  tweakedScriptKey : List Nat
  tweak : List Nat
  deriving DecidableEq, Repr

/-- Row of the `addrs` table (schema in the sources: unique 32-byte
`taproot_output_key`, nullable `managed_from`). -/
structure AddrRow where
  version : Int
  genesisAssetID : Nat
  famKey : Option (List Nat)
  scriptKeyID : Nat
  taprootKeyID : Nat
  taprootOutputKey : List Nat
  amount : Nat
  assetType : Int
  creationTime : Int
  managedFrom : Option Int
  deriving DecidableEq, Repr

/-- Row of the `chain_txns` table. -/
structure ChainTxRow where
  txid : List Nat
  rawTx : List Nat
  blockHeight : Option Int
  blockHash : Option (List Nat)
  deriving DecidableEq, Repr

/-- Row of the `managed_utxos` table. -/
structure ManagedUTXORow where
  rawKey : List Nat
  outpoint : List Nat
  amtSats : Int
  tapscriptSibling : Option (List Nat)
  taroRoot : List Nat
  txnID : Nat
  deriving DecidableEq, Repr

/-- Row of the `addr_events` table. -/
structure AddrEventRow where
  creationTime : Int
  addrID : Nat
  status : Int
  txid : List Nat
  outputIndex : Int
  managedUtxoID : Nat
  assetProofID : Option Nat
  assetID : Option Nat
  deriving DecidableEq, Repr

/-- Row of the asset-proofs table of the external proof store. -/
structure AssetProofRow where
  scriptKey : List Nat
  proofID : Nat
  assetID : Nat
  deriving DecidableEq, Repr

/-- The whole relational state reachable from the `AddrBook` interface.
Surrogate row ids are 1-based positions in the lists. -/
structure DB where
  internalKeys : List InternalKeyRow
  scriptKeys : List ScriptKeyRow
  addrs : List AddrRow
  chainTxs : List ChainTxRow
  managedUtxos : List ManagedUTXORow
  addrEvents : List AddrEventRow
  genesisPoints : List (List Nat)
  genesisAssets : List (Nat × Genesis)
  assetProofs : List AssetProofRow
  deriving DecidableEq, Repr

/-- The freshly migrated empty database. -/
def DB.empty : DB := ⟨[], [], [], [], [], [], [], [], []⟩

/-- Find the first element satisfying `p` together with its 0-based index. -/
def findWithIdx (p : α → Bool) : List α → Nat → Option (Nat × α)
  | [], _ => none
  | x :: xs, i => if p x then some (i, x) else findWithIdx p xs (i + 1)

/-- Replace the element at a 0-based index by applying `f`. -/
def updateAt : List α → Nat → (α → α) → List α
  | [], _, _ => []
  | x :: xs, 0, f => f x :: xs
  | x :: xs, n + 1, f => x :: updateAt xs n f

/-- Look a row up by its 1-based surrogate id. -/
def rowByID (l : List α) (id : Nat) : Option α :=
  if 1 ≤ id then l.get? (id - 1) else none

/-! ## The store layer (the sqlc-generated queries)

These are the bodies behind the `AddrBook` interface.  Their SQL is not part
of the sources, so each is modelled from the spec; the `addrs` table
constraints come from the schema file that is in the sources. -/

/-- Modelled from the spec (§4.2): `UpsertInternalKey` is insert-or-update
keyed by the serialized key bytes; a conflicting insert rewrites the key
locator and returns the existing row id. -/
def upsertInternalKeyQ (db : DB) (rawKey : List Nat) (fam idx : Int) :
    Nat × DB :=
  match findWithIdx (fun r => r.rawKey = rawKey) db.internalKeys 0 with
  | some (i, _) =>
    (i + 1,
      { db with internalKeys :=
          (updateAt db.internalKeys i (fun r =>
            { r with keyFamily := fam, keyIndex := idx })) })
  | none =>
    (db.internalKeys.length + 1,
      { db with internalKeys := db.internalKeys ++ [⟨rawKey, fam, idx⟩] })

/-- Modelled from the spec (§4.2): `UpsertScriptKey` is insert-or-update keyed
by the tweaked key bytes. -/
def upsertScriptKeyQ (db : DB) (internalKeyID : Nat)
    (tweakedScriptKey tweak : List Nat) : Nat × DB :=
  match findWithIdx (fun r => r.tweakedScriptKey = tweakedScriptKey)
      db.scriptKeys 0 with
  | some (i, _) =>
    (i + 1,
      { db with scriptKeys :=
          (updateAt db.scriptKeys i (fun r =>
            { r with internalKeyID := internalKeyID, tweak := tweak })) })
  | none =>
    (db.scriptKeys.length + 1,
      { db with scriptKeys :=
          db.scriptKeys ++ [⟨internalKeyID, tweakedScriptKey, tweak⟩] })

/-- `InsertAddr`, following the `addrs` schema in the sources: plain insert
whose unique constraint on the 32-byte `taproot_output_key` (and its length
check) fails with a constraint violation. -/
def insertAddrQ (db : DB) (row : AddrRow) : Except Err (Nat × DB) :=
  if row.taprootOutputKey.length = 32 ∧
      findWithIdx (fun r => r.taprootOutputKey = row.taprootOutputKey)
        db.addrs 0 = none then
    .ok (db.addrs.length + 1, { db with addrs := db.addrs ++ [row] })
  else
    .error .constraintViolation

/-- Modelled from the spec (§3): `UpsertChainTx` is insert-or-update keyed by
txid, and only updates the confirmation fields that are set (the raw bytes are
always rewritten). -/
def upsertChainTxQ (db : DB) (row : ChainTxRow) : Nat × DB :=
  match findWithIdx (fun r => r.txid = row.txid) db.chainTxs 0 with
  | some (i, _) =>
    (i + 1,
      { db with chainTxs := updateAt db.chainTxs i (fun old =>
          { old with
            rawTx := row.rawTx
            blockHeight := match row.blockHeight with
              | some h => some h
              | none => old.blockHeight
            blockHash := match row.blockHash with
              | some h => some h
              | none => old.blockHash }) })
  | none =>
    (db.chainTxs.length + 1, { db with chainTxs := db.chainTxs ++ [row] })

/-- Modelled from the spec (§3): `UpsertManagedUTXO` is insert-or-update keyed
by the encoded outpoint; a repeat report overwrites every field. -/
def upsertManagedUTXOQ (db : DB) (row : ManagedUTXORow) : Nat × DB :=
  match findWithIdx (fun r => r.outpoint = row.outpoint) db.managedUtxos 0 with
  | some (i, _) =>
    (i + 1, { db with managedUtxos := updateAt db.managedUtxos i (fun _ => row) })
  | none =>
    (db.managedUtxos.length + 1,
      { db with managedUtxos := db.managedUtxos ++ [row] })

/-- Parameters of `UpsertAddrEvent`.  Modelled from the spec: the fields the
two call sites leave unset (`CreationTime`/`ManagedUtxoID` in `CompleteEvent`,
the proof and asset links in `GetOrCreateEvent`) are optional and are not
touched by the conflict update when absent. -/
structure UpsertAddrEventParams where
  taprootOutputKey : List Nat
  creationTime : Option Int
  status : Int
  txid : List Nat
  outputIndex : Int
  managedUtxoID : Option Nat
  assetProofID : Option Nat
  assetID : Option Nat
  deriving DecidableEq, Repr

/-- Modelled from the spec (§3, §4.4): `UpsertAddrEvent` is keyed by
(address taproot output key, txid, output index).  The status CHECK constraint
rejects codes outside the valid set before any row is written; the address is
resolved by its taproot output key (a missing address violates the NOT NULL
foreign key).  A conflicting insert updates status and the supplied linkage in
place; the proof/asset links coalesce with the existing values. -/
def upsertAddrEventQ (db : DB) (p : UpsertAddrEventParams) :
    Except Err (Nat × DB) :=
  if isValidStatus p.status then
    match findWithIdx (fun r => r.taprootOutputKey = p.taprootOutputKey)
        db.addrs 0 with
    | none => .error .constraintViolation
    | some (ai, _) =>
      match findWithIdx
          (fun r => r.addrID = ai + 1 ∧ r.txid = p.txid ∧
            r.outputIndex = p.outputIndex) db.addrEvents 0 with
      | some (ei, _) =>
        .ok (ei + 1,
          { db with addrEvents := updateAt db.addrEvents ei (fun old =>
              { old with
                status := p.status
                managedUtxoID := match p.managedUtxoID with
                  | some u => u
                  | none => old.managedUtxoID
                assetProofID := match p.assetProofID with
                  | some pr => some pr
                  | none => old.assetProofID
                assetID := match p.assetID with
                  | some a => some a
                  | none => old.assetID }) })
      | none =>
        .ok (db.addrEvents.length + 1,
          { db with addrEvents := db.addrEvents ++
              [{ creationTime := match p.creationTime with
                   | some t => t
                   | none => 0
                 addrID := ai + 1
                 status := p.status
                 txid := p.txid
                 outputIndex := p.outputIndex
                 managedUtxoID := match p.managedUtxoID with
                   | some u => u
                   | none => 0
                 assetProofID := p.assetProofID
                 assetID := p.assetID }] })
  else
    .error .constraintViolation

/-- The joined address row returned by the fetch queries (type aliases
`Addresses` / `AddrByTaprootOutput` in the sources). -/
structure AddrJoinRow where
  version : Int
  genesisAssetID : Nat
  famKey : Option (List Nat)
  rawScriptKey : List Nat
  scriptKeyFamily : Int
  scriptKeyIndex : Int
  tweakedScriptKey : List Nat
  scriptKeyTweak : List Nat
  rawTaprootKey : List Nat
  taprootKeyFamily : Int
  taprootKeyIndex : Int
  taprootOutputKey : List Nat
  amount : Nat
  creationTime : Int
  managedFrom : Option Int
  deriving DecidableEq, Repr

/-- Inner-join an `addrs` row with its script-key and internal-key rows. -/
def joinAddrRow (db : DB) (r : AddrRow) : Option AddrJoinRow := do
  let sk ← rowByID db.scriptKeys r.scriptKeyID
  let rawSk ← rowByID db.internalKeys sk.internalKeyID
  let rawTk ← rowByID db.internalKeys r.taprootKeyID
  pure
    { version := r.version
      genesisAssetID := r.genesisAssetID
      famKey := r.famKey
      rawScriptKey := rawSk.rawKey
      scriptKeyFamily := rawSk.keyFamily
      scriptKeyIndex := rawSk.keyIndex
      tweakedScriptKey := sk.tweakedScriptKey
      scriptKeyTweak := sk.tweak
      rawTaprootKey := rawTk.rawKey
      taprootKeyFamily := rawTk.keyFamily
      taprootKeyIndex := rawTk.keyIndex
      taprootOutputKey := r.taprootOutputKey
      amount := r.amount
      creationTime := r.creationTime
      managedFrom := r.managedFrom }

/-- Modelled from the spec (§4.3): `FetchAddrs` filters on the creation-time
window and the unmanaged flag, keeps storage order, then applies offset and
limit (a negative limit meaning unlimited). -/
def fetchAddrsRows (db : DB) (createdAfter createdBefore : Int)
    (numOffset numLimit : Int) (unmanagedOnly : Bool) : List AddrJoinRow :=
  let matching := db.addrs.filter (fun r =>
    createdAfter ≤ r.creationTime ∧ r.creationTime ≤ createdBefore ∧
      (unmanagedOnly = false ∨ r.managedFrom = none))
  let paged := if numLimit < 0 then matching.drop numOffset.toNat
    else (matching.drop numOffset.toNat).take numLimit.toNat
  paged.filterMap (joinAddrRow db)

/-- Spec-worded reference variant of `FetchAddrs` with no upper
creation-time bound at all, used to state that the sentinel default for
`createdBefore` "never filters on it". -/
def fetchAddrsRowsNoUpperBound (db : DB) (createdAfter : Int)
    (numOffset numLimit : Int) (unmanagedOnly : Bool) : List AddrJoinRow :=
  let matching := db.addrs.filter (fun r =>
    createdAfter ≤ r.creationTime ∧
      (unmanagedOnly = false ∨ r.managedFrom = none))
  let paged := if numLimit < 0 then matching.drop numOffset.toNat
    else (matching.drop numOffset.toNat).take numLimit.toNat
  paged.filterMap (joinAddrRow db)

/-- `FetchAddrByTaprootOutputKey` (interface contract in the sources): the
single joined row for the key, or `sql.ErrNoRows` when no address matches. -/
def fetchAddrByTaprootOutputKeyQ (db : DB) (key : List Nat) :
    Except Err AddrJoinRow :=
  match findWithIdx (fun r => r.taprootOutputKey = key) db.addrs 0 with
  | some (_, r) =>
    match joinAddrRow db r with
    | some row => .ok row
    | none => .error .noRows
  | none => .error .noRows

/-- Modelled from the spec (§4.3): `SetAddrManaged` updates the
`managed_from` column of the row with the given taproot output key (a missing
row simply updates nothing). -/
def setAddrManagedQ (db : DB) (key : List Nat) (managedFrom : Int) : DB :=
  match findWithIdx (fun r => r.taprootOutputKey = key) db.addrs 0 with
  | some (i, _) =>
    { db with addrs :=
        (updateAt db.addrs i (fun r =>
          { r with managedFrom := some managedFrom })) }
  | none => db

/-- The joined event row returned by `FetchAddrEvent` (type alias `AddrEvent`
in the sources): the event row joined with its managed UTXO (owning internal
key, amount, tapscript sibling) and its chain transaction (confirmation
height). -/
structure AddrEventJoinRow where
  creationTime : Int
  status : Int
  txid : List Nat
  outputIndex : Int
  amtSats : Int
  internalKey : List Nat
  tapscriptSibling : Option (List Nat)
  confirmationHeight : Option Int
  assetProofID : Option Nat
  deriving DecidableEq, Repr

/-- Modelled from the spec (§3, §4.4): `FetchAddrEvent` resolves one event by
primary id, joining its managed UTXO and chain transaction. -/
def fetchAddrEventQ (db : DB) (id : Nat) : Except Err AddrEventJoinRow :=
  match rowByID db.addrEvents id with
  | none => .error .noRows
  | some e =>
    match rowByID db.managedUtxos e.managedUtxoID with
    | none => .error .noRows
    | some u =>
      .ok
        { creationTime := e.creationTime
          status := e.status
          txid := e.txid
          outputIndex := e.outputIndex
          amtSats := u.amtSats
          internalKey := u.rawKey
          tapscriptSibling := u.tapscriptSibling
          confirmationHeight :=
            match findWithIdx (fun r => r.txid = e.txid) db.chainTxs 0 with
            | some (_, ct) => ct.blockHeight
            | none => none
          assetProofID := e.assetProofID }

/-- Parameters of `QueryEventIDs` (type alias `AddrEventQuery`). -/
structure QueryEventIDsParams where
  addrTaprootKey : Option (List Nat)
  statusFrom : Int
  statusTo : Int
  deriving DecidableEq, Repr

/-- A present key filter matches exactly the address stored under those key
bytes; an absent filter matches every address. -/
def matchesKeyFilter (filter : Option (List Nat)) (key : List Nat) : Bool :=
  match filter with
  | some k => key = k
  | none => true

/-- Modelled from the spec (§4.4): `QueryEventIDs` returns the ids and
address taproot output keys of the events inside the inclusive status range,
restricted to one address when a key filter is present, ordered by ascending
primary id. -/
def queryEventIDsQ (db : DB) (q : QueryEventIDsParams) :
    List (Nat × List Nat) :=
  (db.addrEvents.enum.filterMap (fun (i, e) =>
    match rowByID db.addrs e.addrID with
    | none => none
    | some a =>
      if q.statusFrom ≤ e.status ∧ e.status ≤ q.statusTo ∧
          matchesKeyFilter q.addrTaprootKey a.taprootOutputKey then
        some (i + 1, a.taprootOutputKey)
      else
        none))

/-- Modelled from the spec (§2, §6): the genesis-point store is
insert-or-fetch keyed by the encoded genesis outpoint. -/
def upsertGenesisPointQ (db : DB) (outpointBytes : List Nat) : Nat × DB :=
  match findWithIdx (fun r => r = outpointBytes) db.genesisPoints 0 with
  | some (i, _) => (i + 1, db)
  | none =>
    (db.genesisPoints.length + 1,
      { db with genesisPoints := db.genesisPoints ++ [outpointBytes] })

/-- Modelled from the spec (§2, §4.3): the genesis-asset store is
insert-or-fetch of the full genesis record under its genesis point. -/
def upsertGenesisQ (db : DB) (pointID : Nat) (g : Genesis) : Nat × DB :=
  match findWithIdx (fun r => r.2 = g) db.genesisAssets 0 with
  | some (i, _) => (i + 1, db)
  | none =>
    (db.genesisAssets.length + 1,
      { db with genesisAssets := db.genesisAssets ++ [(pointID, g)] })

/-- Modelled from the spec (§4.3): `fetchGenesis` resolves a stored genesis
record by id. -/
def fetchGenesisQ (db : DB) (id : Nat) : Except Err Genesis :=
  match rowByID db.genesisAssets id with
  | some (_, g) => .ok g
  | none => .error .noRows

/-- `FetchAssetProof` (interface contract in the sources): the proof row for
an asset script key, or `sql.ErrNoRows`. -/
def fetchAssetProofQ (db : DB) (scriptKey : List Nat) :
    Except Err AssetProofRow :=
  match findWithIdx (fun r => r.scriptKey = scriptKey) db.assetProofs 0 with
  | some (_, r) => .ok r
  | none => .error .noRows

/-! ## The address book (`tarodb/addrs.go`) -/

/-- `TaroAddressBook`: the storage backend handle plus the chain parameters
(the backend itself is the explicit `DB` argument of each operation). -/
structure TaroAddressBook where
  params : Nat
  deriving DecidableEq, Repr

/-- Wrap an error as `fmt.Errorf` with `%w` does. -/
def wrapErr : Except Err α → Except Err α
  | .error e => .error (.wrapped e)
  | .ok a => .ok a

/-- `insertInternalKey`: upsert the serialized compressed key with its
locator. -/
def insertInternalKey (db : DB) (desc : KeyDescriptor) : Nat × DB :=
  upsertInternalKeyQ db (serializeCompressed desc.pubKey) desc.family desc.index

/-- Modelled from the spec (§6): `addr.TaroCommitment().TapscriptRoot`, the
external commitment-root function, consumed as a pure function of the address
and the optional tapscript sibling. -/
def taroCommitmentRoot (addr : AddrWithKeyInfo) (sibling : Option Nat) :
    List Nat :=
  addr.taro.scriptKey.x :: addr.taro.internalKey.x ::
    (match sibling with
     | some h => [h]
     | none => [])

/-- The transaction body of `InsertAddrs`: for each address insert the genesis
point and genesis, the script key's raw internal key, the script key, the
taproot internal key, and finally the address row keyed by its taproot output
key. -/
def insertAddrsLoop (db : DB) : List AddrWithKeyInfo → Except Err DB
  | [] => .ok db
  | addr :: rest =>
    let (genesisPointID, db) :=
      upsertGenesisPointQ db (encodeOutpoint addr.taro.genesis.firstPrevOut)
    let (genAssetID, db) := upsertGenesisQ db genesisPointID addr.taro.genesis
    let (rawScriptKeyID, db) := insertInternalKey db addr.scriptKeyTweak.rawKey
    let (scriptKeyID, db) := upsertScriptKeyQ db rawScriptKeyID
      (serializeCompressed addr.taro.scriptKey) addr.scriptKeyTweak.tweak
    let (taprootKeyID, db) := insertInternalKey db addr.internalKeyDesc
    let famKeyBytes := addr.taro.familyKey.map serializeCompressed
    match insertAddrQ db
        { version := addr.taro.version
          genesisAssetID := genAssetID
          famKey := famKeyBytes
          scriptKeyID := scriptKeyID
          taprootKeyID := taprootKeyID
          taprootOutputKey := schnorrSerialize addr.taprootOutputKey
          amount := addr.taro.amount
          assetType := addr.taro.genesis.assetType
          creationTime := addr.creationTime.sec
          managedFrom := none } with
    | .error e => .error (.wrapped e)
    | .ok (_, db) => insertAddrsLoop db rest

/-- `InsertAddrs`: the batch insert inside one transaction; on any error the
transaction executor rolls the whole batch back. -/
def TaroAddressBook.insertAddrs (_t : TaroAddressBook) (db : DB)
    (addrs : List AddrWithKeyInfo) : Except Err Unit × DB :=
  match insertAddrsLoop db addrs with
  | .ok db' => (.ok (), db')
  | .error e => (.error e, db)

/-- Model of `address.QueryParams`. -/
structure QueryParams where
  createdAfter : GoTime
  createdBefore : GoTime
  limit : Int
  offset : Int
  unmanagedOnly : Bool
  deriving DecidableEq, Repr

/-- The zero-value query (Go `address.QueryParams{}`). -/
def QueryParams.default : QueryParams :=
  ⟨GoTime.zero, GoTime.zero, 0, 0, false⟩

/-- Abort-on-first-error mapping, as the Go loops build their result slices. -/
def mapExcept (f : α → Except Err β) : List α → Except Err (List β)
  | [] => .ok []
  | x :: xs =>
    match f x with
    | .error e => .error e
    | .ok y =>
      match mapExcept f xs with
      | .error e => .error e
      | .ok ys => .ok (y :: ys)

/-- The body of the `QueryAddrs` result loop: reconstitute one joined row
into an `AddrWithKeyInfo`, parsing every stored key. -/
def addrRowToAddr (db : DB) (chainParams : Nat) (row : AddrJoinRow) :
    Except Err AddrWithKeyInfo := do
  let assetGenesis ← wrapErr (fetchGenesisQ db row.genesisAssetID)
  let famKey ← match row.famKey with
    | none => pure none
    | some b =>
      match parsePubKey b with
      | .ok k => pure (some k)
      | .error e => .error (.wrapped e)
  let rawScriptKey ← wrapErr (parsePubKey row.rawScriptKey)
  let rawScriptKeyDesc : KeyDescriptor :=
    ⟨row.scriptKeyFamily, row.scriptKeyIndex, rawScriptKey⟩
  let internalKey ← wrapErr (parsePubKey row.rawTaprootKey)
  let internalKeyDesc : KeyDescriptor :=
    ⟨row.taprootKeyFamily, row.taprootKeyIndex, internalKey⟩
  let scriptKey ← parsePubKey row.tweakedScriptKey
  let taprootOutputKey ← wrapErr (schnorrParse row.taprootOutputKey)
  pure
    { taro :=
        { version := row.version
          genesis := assetGenesis
          familyKey := famKey
          scriptKey := scriptKey
          internalKey := internalKey
          amount := row.amount
          chainParams := chainParams }
      scriptKeyTweak := ⟨rawScriptKeyDesc, row.scriptKeyTweak⟩
      internalKeyDesc := internalKeyDesc
      taprootOutputKey := taprootOutputKey
      creationTime := ⟨row.creationTime, 0⟩
      managedAfter :=
        match row.managedFrom with
        | some s => ⟨s, 0⟩
        | none => GoTime.zero }

/-- `QueryAddrs`: a zero `createdBefore` becomes the unbounded-future
sentinel `time.Unix(math.MaxInt64, 0)`, a zero limit becomes the unlimited
`-1`, then the joined rows are fetched and reconstituted. -/
def TaroAddressBook.queryAddrs (t : TaroAddressBook) (db : DB)
    (params : QueryParams) : Except Err (List AddrWithKeyInfo) :=
  let createdBefore :=
    if params.createdBefore.isZero then GoTime.unix maxInt64
    else params.createdBefore
  let limit : Int := if params.limit ≠ 0 then params.limit else -1
  mapExcept (addrRowToAddr db t.params)
    (fetchAddrsRows db params.createdAfter.sec createdBefore.sec
      params.offset limit params.unmanagedOnly)

/-- Spec-worded reference variant of `QueryAddrs` with no upper
creation-time bound: what "never filters on `createdBefore`" means. -/
def TaroAddressBook.queryAddrsNoUpperBound (t : TaroAddressBook) (db : DB)
    (params : QueryParams) : Except Err (List AddrWithKeyInfo) :=
  let limit : Int := if params.limit ≠ 0 then params.limit else -1
  mapExcept (addrRowToAddr db t.params)
    (fetchAddrsRowsNoUpperBound db params.createdAfter.sec
      params.offset limit params.unmanagedOnly)

/-- `fetchAddr`: fetch a single address by its taproot output key, mapping
`sql.ErrNoRows` to the domain-level `address.ErrNoAddr`, and populate all its
fields (the returned taproot output key is the query key itself, and no
managed-after timestamp is set). -/
def fetchAddr (db : DB) (chainParams : Nat) (taprootOutputKey : PubKey) :
    Except Err AddrWithKeyInfo :=
  match fetchAddrByTaprootOutputKeyQ db (schnorrSerialize taprootOutputKey) with
  | .error e =>
    if e.root = .noRows then .error .errNoAddr else .error e
  | .ok dbAddr => do
    let genesis ← wrapErr (fetchGenesisQ db dbAddr.genesisAssetID)
    let famKey ← match dbAddr.famKey with
      | none => pure none
      | some b =>
        match parsePubKey b with
        | .ok k => pure (some k)
        | .error e => .error (.wrapped e)
    let rawScriptKey ← wrapErr (parsePubKey dbAddr.rawScriptKey)
    let scriptKeyDesc : KeyDescriptor :=
      ⟨dbAddr.scriptKeyFamily, dbAddr.scriptKeyIndex, rawScriptKey⟩
    let scriptKey ← wrapErr (parsePubKey dbAddr.tweakedScriptKey)
    let internalKey ← wrapErr (parsePubKey dbAddr.rawTaprootKey)
    let internalKeyDesc : KeyDescriptor :=
      ⟨dbAddr.taprootKeyFamily, dbAddr.taprootKeyIndex, internalKey⟩
    pure
      { taro :=
          { version := dbAddr.version
            genesis := genesis
            familyKey := famKey
            scriptKey := scriptKey
            internalKey := internalKey
            amount := dbAddr.amount
            chainParams := chainParams }
        scriptKeyTweak := ⟨scriptKeyDesc, dbAddr.scriptKeyTweak⟩
        internalKeyDesc := internalKeyDesc
        taprootOutputKey := taprootOutputKey
        creationTime := ⟨dbAddr.creationTime, 0⟩
        managedAfter := GoTime.zero }

/-- `AddrByTaprootOutput`: `fetchAddr` inside a read transaction. -/
def TaroAddressBook.addrByTaprootOutput (t : TaroAddressBook) (db : DB)
    (key : PubKey) : Except Err AddrWithKeyInfo :=
  fetchAddr db t.params key

/-- `SetAddrManaged`: set the managed-from timestamp of the address row with
this taproot output key. -/
def TaroAddressBook.setAddrManaged (_t : TaroAddressBook) (db : DB)
    (addr : AddrWithKeyInfo) (managedFrom : GoTime) : Except Err Unit × DB :=
  (.ok (),
    setAddrManagedQ db (schnorrSerialize addr.taprootOutputKey) managedFrom.sec)

/-- `fetchEvent`: resolve one event row by primary id into an
`address.Event`, parsing the stored internal key and txid. -/
def fetchEvent (db : DB) (eventID : Nat) (addr : AddrWithKeyInfo) :
    Except Err AddrEvent := do
  let dbEvent ← wrapErr (fetchAddrEventQ db eventID)
  let internalKey ← wrapErr (parsePubKey dbEvent.internalKey)
  let hash ← wrapErr (newHash dbEvent.txid)
  pure
    { id := eventID
      creationTime := ⟨dbEvent.creationTime, 0⟩
      addr := addr
      status := dbEvent.status
      outpoint := ⟨hash, dbEvent.outputIndex.toNat⟩
      amt := dbEvent.amtSats
      internalKey := internalKey
      tapscriptSibling := dbEvent.tapscriptSibling
      confirmationHeight :=
        match dbEvent.confirmationHeight with
        | some h => h
        | none => 0
      hasProof := dbEvent.assetProofID.isSome }

/-- A Go computation that can panic instead of returning. -/
inductive PanicOr (α : Type u) where
  | panic
  | ok (val : α)
  deriving DecidableEq, Repr

/-- The non-panicking outcome, when there is one. -/
def PanicOr.get? : PanicOr α → Option α
  | .panic => none
  | .ok v => some v

/-- `GetOrCreateEvent`: serialize the wallet transaction, read the wallet's
output details at `outputIdx` (an unchecked index: out of range panics), then
inside one transaction upsert the chain transaction, the managed UTXO and the
address event, and re-fetch the resulting event.  `now` stands for the
`time.Now()` call that stamps a newly created event. -/
def TaroAddressBook.getOrCreateEvent (_t : TaroAddressBook) (db : DB)
    (status : Int) (addr : AddrWithKeyInfo) (walletTx : WalletTx)
    (outputIdx : Nat) (tapscriptSibling : Option Nat) (now : Int) :
    PanicOr (Except Err AddrEvent × DB) :=
  let txHash := walletTx.txHash
  let txBuf := walletTx.rawBytes
  let outpointBytes := encodeOutpoint ⟨txHash, outputIdx⟩
  match walletTx.outputDetails.get? outputIdx with
  | none => .panic
  | some outputDetails =>
    let siblingBytes := tapscriptSibling.map (natToBytesLE 32)
    let body : Except Err (AddrEvent × DB) :=
      let txUpsert : ChainTxRow :=
        { txid := natToBytesLE 32 txHash
          rawTx := txBuf
          blockHeight :=
            if 0 < walletTx.confirmations then some walletTx.blockHeight
            else none
          blockHash :=
            if 0 < walletTx.confirmations then
              some (natToBytesLE 32 walletTx.blockHash)
            else none }
      let (chainTxID, db1) := upsertChainTxQ db txUpsert
      let taroRoot := taroCommitmentRoot addr tapscriptSibling
      let utxoUpsert : ManagedUTXORow :=
        { rawKey := serializeCompressed addr.taro.internalKey
          outpoint := outpointBytes
          amtSats := outputDetails.amount
          tapscriptSibling := siblingBytes
          taroRoot := taroRoot
          txnID := chainTxID }
      let (managedUtxoID, db2) := upsertManagedUTXOQ db1 utxoUpsert
      match upsertAddrEventQ db2
          { taprootOutputKey := schnorrSerialize addr.taprootOutputKey
            creationTime := some now
            status := status
            txid := natToBytesLE 32 txHash
            outputIndex := Int.ofNat outputIdx
            managedUtxoID := some managedUtxoID
            assetProofID := none
            assetID := none } with
      | .error e => .error (.wrapped e)
      | .ok (eventID, db3) =>
        match fetchEvent db3 eventID addr with
        | .error e => .error e
        | .ok ev => .ok (ev, db3)
    .ok
      (match body with
       | .ok (ev, db') => (.ok ev, db')
       | .error e => (.error e, db))

/-- Model of `address.EventQueryParams`. -/
structure EventQueryParams where
  addrTaprootOutputKey : List Nat
  statusFrom : Option Int
  statusTo : Option Int
  deriving DecidableEq, Repr

/-- The query translation of `QueryAddrEvents`: default to the full
`[TransactionDetected, Completed]` status range and no key filter; a
non-empty key slice becomes a key filter, and the set status bounds
override the defaults. -/
def buildEventQuery (params : EventQueryParams) : QueryEventIDsParams :=
  let q : QueryEventIDsParams :=
    { addrTaprootKey := none
      statusFrom := StatusTransactionDetected
      statusTo := StatusCompleted }
  let q :=
    if 0 < params.addrTaprootOutputKey.length then
      { q with addrTaprootKey := some params.addrTaprootOutputKey }
    else q
  let q := match params.statusFrom with
    | some s => { q with statusFrom := s }
    | none => q
  match params.statusTo with
  | some s => { q with statusTo := s }
  | none => q

/-- The result loop of `QueryAddrEvents`: parse each returned taproot key,
resolve its address and event. -/
def queryAddrEventsLoop (db : DB) (chainParams : Nat) :
    List (Nat × List Nat) → Except Err (List AddrEvent)
  | [] => .ok []
  | (eventID, keyBytes) :: rest => do
    let taprootOutputKey ← wrapErr (schnorrParse keyBytes)
    let addr ← wrapErr (fetchAddr db chainParams taprootOutputKey)
    let event ← wrapErr (fetchEvent db eventID addr)
    let others ← queryAddrEventsLoop db chainParams rest
    pure (event :: others)

/-- `QueryAddrEvents`: translate the abstract query parameters and resolve
every matching event under one read transaction. -/
def TaroAddressBook.queryAddrEvents (t : TaroAddressBook) (db : DB)
    (params : EventQueryParams) : Except Err (List AddrEvent) :=
  queryAddrEventsLoop db t.params (queryEventIDsQ db (buildEventQuery params))

/-- Spec-worded reference variant of `QueryAddrEvents` with no key filter at
all (matching every address), the status bounds defaulting as in the spec. -/
def TaroAddressBook.queryAddrEventsNoKeyFilter (t : TaroAddressBook) (db : DB)
    (params : EventQueryParams) : Except Err (List AddrEvent) :=
  queryAddrEventsLoop db t.params (queryEventIDsQ db
    { addrTaprootKey := none
      statusFrom :=
        match params.statusFrom with
        | some s => s
        | none => StatusTransactionDetected
      statusTo :=
        match params.statusTo with
        | some s => s
        | none => StatusCompleted })

/-- `CompleteEvent`: look up the asset proof for the event address's script
key (failing when none exists yet), then upsert the event row with the new
status, the anchor outpoint and the resolved asset/proof links. -/
def TaroAddressBook.completeEvent (_t : TaroAddressBook) (db : DB)
    (event : AddrEvent) (status : Int) (anchorPoint : OutPoint) :
    Except Err Unit × DB :=
  let scriptKeyBytes := serializeCompressed event.addr.taro.scriptKey
  let body : Except Err DB :=
    match fetchAssetProofQ db scriptKeyBytes with
    | .error e => .error (.wrapped e)
    | .ok proofData =>
      match upsertAddrEventQ db
          { taprootOutputKey := schnorrSerialize event.addr.taprootOutputKey
            creationTime := none
            status := status
            txid := natToBytesLE 32 anchorPoint.hash
            outputIndex := Int.ofNat anchorPoint.index
            managedUtxoID := none
            assetProofID := some proofData.proofID
            assetID := some proofData.assetID } with
      | .error e => .error e
      | .ok (_, db') => .ok db'
  match body with
  | .ok db' => (.ok (), db')
  | .error e => (.error e, db)

/-! ## Validity of in-memory addresses

A "valid address" in the sense of the spec: every contained public key is a
key the elliptic-curve library can serialize and re-parse, the taproot output
key is the even-parity key that its x-only encoding denotes, the two internal
keys of the address are stored under distinct serialized bytes, the in-memory
record is consistent (its taproot internal key is the key of its own
descriptor, it was created for this book's chain parameters, it has not been
managed yet), and its creation time is a representable timestamp. -/

/-- All public keys contained in the address parse back from their stored
serializations. -/
def AddrWithKeyInfo.keysValidB (a : AddrWithKeyInfo) : Bool :=
  a.taro.scriptKey.validB && a.taro.internalKey.validB &&
    a.scriptKeyTweak.rawKey.pubKey.validB && a.taprootOutputKey.validB &&
    a.internalKeyDesc.pubKey.validB &&
    (match a.taro.familyKey with
     | some k => k.validB
     | none => true)

/-- The full validity bundle for an address inserted into a book. -/
def insertReady (t : TaroAddressBook) (a : AddrWithKeyInfo) : Bool :=
  a.keysValidB &&
    decide (serializeCompressed a.scriptKeyTweak.rawKey.pubKey ≠
      serializeCompressed a.internalKeyDesc.pubKey) &&
    decide (a.taro.internalKey = a.internalKeyDesc.pubKey) &&
    (a.taprootOutputKey.odd = false) &&
    decide (a.managedAfter = GoTime.zero) &&
    decide (a.taro.chainParams = t.params) &&
    decide (GoTime.zero.sec ≤ a.creationTime.sec ∧
      a.creationTime.sec ≤ maxInt64)

/-- The test comparison `assertEqualAddr`: two address records are equal in
every field once the creation timestamps are erased, and the creation
timestamps agree at one-second resolution. -/
def eqUpToSecond (x y : AddrWithKeyInfo) : Prop :=
  x.creationTime.sec = y.creationTime.sec ∧
    { x with creationTime := GoTime.zero } = { y with creationTime := GoTime.zero }

/-! ## Concrete sample values (witness inputs) -/

/-- A concrete address book over chain-parameter tag 0. -/
def bookW : TaroAddressBook := ⟨0⟩

/-- A concrete genesis record. -/
def genW : Genesis := ⟨⟨7, 0⟩, 0, 11⟩

/-- A concrete valid address. -/
def addrW : AddrWithKeyInfo :=
  { taro :=
      { version := 0
        genesis := genW
        familyKey := some ⟨6, true⟩
        scriptKey := ⟨2, false⟩
        internalKey := ⟨3, false⟩
        amount := 5
        chainParams := 0 }
    scriptKeyTweak := ⟨⟨1, 2, ⟨1, false⟩⟩, [9]⟩
    internalKeyDesc := ⟨3, 4, ⟨3, false⟩⟩
    taprootOutputKey := ⟨4, false⟩
    creationTime := ⟨100, 500⟩
    managedAfter := GoTime.zero }

/-- A second concrete valid address sharing `addrW`'s taproot output key. -/
def addrW2 : AddrWithKeyInfo :=
  { taro :=
      { version := 1
        genesis := ⟨⟨8, 1⟩, 1, 12⟩
        familyKey := none
        scriptKey := ⟨12, false⟩
        internalKey := ⟨13, false⟩
        amount := 6
        chainParams := 0 }
    scriptKeyTweak := ⟨⟨5, 6, ⟨11, false⟩⟩, []⟩
    internalKeyDesc := ⟨7, 8, ⟨13, false⟩⟩
    taprootOutputKey := ⟨4, false⟩
    creationTime := ⟨200, 0⟩
    managedAfter := GoTime.zero }

/-- A concrete unconfirmed two-output wallet transaction. -/
def txW : WalletTx :=
  { txHash := 21
    rawBytes := [1, 2]
    outputDetails := [⟨1000, true⟩, ⟨2000, false⟩]
    confirmations := 0
    blockHash := 22
    blockHeight := 0 }

/-- The row the single address of a fresh book occupies, with its
managed-from column left as a parameter. -/
def addrRowOf (a : AddrWithKeyInfo) (mf : Option Int) : AddrRow :=
  { version := a.taro.version
    genesisAssetID := 1
    famKey := a.taro.familyKey.map serializeCompressed
    scriptKeyID := 1
    taprootKeyID := 2
    taprootOutputKey := schnorrSerialize a.taprootOutputKey
    amount := a.taro.amount
    assetType := a.taro.genesis.assetType
    creationTime := a.creationTime.sec
    managedFrom := mf }

/-- The database state after inserting one address into the empty store,
with the managed-from column left as a parameter. -/
def dbAfterInsertM (a : AddrWithKeyInfo) (mf : Option Int) : DB :=
  { internalKeys :=
      [⟨serializeCompressed a.scriptKeyTweak.rawKey.pubKey,
          a.scriptKeyTweak.rawKey.family, a.scriptKeyTweak.rawKey.index⟩,
        ⟨serializeCompressed a.internalKeyDesc.pubKey,
          a.internalKeyDesc.family, a.internalKeyDesc.index⟩]
    scriptKeys := [⟨1, serializeCompressed a.taro.scriptKey,
      a.scriptKeyTweak.tweak⟩]
    addrs := [addrRowOf a mf]
    chainTxs := []
    managedUtxos := []
    addrEvents := []
    genesisPoints := [encodeOutpoint a.taro.genesis.firstPrevOut]
    genesisAssets := [(1, a.taro.genesis)]
    assetProofs := [] }

/-- The record the fetch paths reconstruct for a stored address: the address
itself with the book's chain parameters, the internal key of its descriptor,
its creation time truncated to seconds, and no managed-after timestamp. -/
def reconstructedAddr (chainParams : Nat) (a : AddrWithKeyInfo) :
    AddrWithKeyInfo :=
  { taro :=
      { version := a.taro.version
        genesis := a.taro.genesis
        familyKey := a.taro.familyKey
        scriptKey := a.taro.scriptKey
        internalKey := a.internalKeyDesc.pubKey
        amount := a.taro.amount
        chainParams := chainParams }
    scriptKeyTweak := a.scriptKeyTweak
    internalKeyDesc := a.internalKeyDesc
    taprootOutputKey := a.taprootOutputKey
    creationTime := ⟨a.creationTime.sec, 0⟩
    managedAfter := GoTime.zero }

/-! ## Byte-encoding and key-parsing lemmas -/

theorem length_natToBytesLE (n x : Nat) : (natToBytesLE n x).length = n := by
  induction n generalizing x with
  | zero => rfl
  | succ n ih => simp [natToBytesLE, ih]

theorem pow256_32 : (256 : Nat) ^ 32 = 2 ^ 256 := by norm_num

theorem mod_mul_decomp (x p q : Nat) :
    x % (p * q) = p * (x / p % q) + x % p := by
  conv_lhs => rw [← Nat.div_add_mod (x % (p * q)) p]
  rw [Nat.mod_mul_right_div_self, Nat.mod_mod_of_dvd _ (dvd_mul_right p q)]

theorem bytesToNatLE_natToBytesLE (n x : Nat) :
    bytesToNatLE (natToBytesLE n x) = x % 256 ^ n := by
  induction n generalizing x with
  | zero => simp [natToBytesLE, bytesToNatLE, Nat.mod_one]
  | succ n ih =>
    rw [natToBytesLE, bytesToNatLE, ih, pow_succ']
    rw [mod_mul_decomp x 256 (256 ^ n)]
    omega

theorem bytesToNatLE_natToBytesLE_of_lt {n x : Nat} (h : x < 256 ^ n) :
    bytesToNatLE (natToBytesLE n x) = x := by
  rw [bytesToNatLE_natToBytesLE, Nat.mod_eq_of_lt h]

theorem PubKey.valid_iff {k : PubKey} :
    k.validB = true ↔ 0 < k.x ∧ k.x < 2 ^ 256 := by
  simp [PubKey.validB]

theorem parsePubKey_serializeCompressed {k : PubKey} (h : k.validB = true) :
    parsePubKey (serializeCompressed k) = .ok k := by
  obtain ⟨h1, h2⟩ := PubKey.valid_iff.mp h
  have hx : bytesToNatLE (natToBytesLE 32 k.x) = k.x :=
    bytesToNatLE_natToBytesLE_of_lt (by rw [pow256_32]; exact h2)
  cases k with
  | mk x odd =>
    cases odd <;>
      simp_all [serializeCompressed, parsePubKey, length_natToBytesLE]

theorem schnorrParse_schnorrSerialize {k : PubKey} (h : k.validB = true) :
    schnorrParse (schnorrSerialize k) = .ok ⟨k.x, false⟩ := by
  obtain ⟨h1, h2⟩ := PubKey.valid_iff.mp h
  have hx : bytesToNatLE (natToBytesLE 32 k.x) = k.x :=
    bytesToNatLE_natToBytesLE_of_lt (by rw [pow256_32]; exact h2)
  simp [schnorrSerialize, schnorrParse, length_natToBytesLE, hx, h1]

theorem newHash_natToBytesLE {h : Nat} (hlt : h < 2 ^ 256) :
    newHash (natToBytesLE 32 h) = .ok h := by
  simp [newHash, length_natToBytesLE,
    bytesToNatLE_natToBytesLE_of_lt (by rw [pow256_32]; exact hlt)]

theorem PubKey.eta_even {k : PubKey} (h : k.odd = false) :
    PubKey.mk k.x false = k := by
  cases k
  simp_all



/-! ## Insertion and reconstruction lemmas -/

theorem insertAddrs_empty (t : TaroAddressBook) (a : AddrWithKeyInfo)
    (hne : serializeCompressed a.scriptKeyTweak.rawKey.pubKey ≠
      serializeCompressed a.internalKeyDesc.pubKey) :
    t.insertAddrs DB.empty [a] = (.ok (), dbAfterInsertM a none) := by
  simp [TaroAddressBook.insertAddrs, insertAddrsLoop, upsertGenesisPointQ,
    upsertGenesisQ, insertInternalKey, upsertInternalKeyQ, upsertScriptKeyQ,
    insertAddrQ, findWithIdx, DB.empty, dbAfterInsertM, addrRowOf, hne,
    schnorrSerialize, length_natToBytesLE]

theorem fetchAddr_dbAfterInsertM (p : Nat) (a : AddrWithKeyInfo)
    (mf : Option Int) (hv : a.keysValidB = true) :
    fetchAddr (dbAfterInsertM a mf) p a.taprootOutputKey =
      .ok (reconstructedAddr p a) := by
  simp only [AddrWithKeyInfo.keysValidB, Bool.and_eq_true] at hv
  obtain ⟨⟨⟨⟨⟨hks, hki⟩, hkr⟩, hko⟩, hkd⟩, hfam⟩ := hv
  cases hf : a.taro.familyKey with
  | none =>
    simp [fetchAddr, fetchAddrByTaprootOutputKeyQ, dbAfterInsertM, addrRowOf,
      findWithIdx, joinAddrRow, rowByID, fetchGenesisQ, wrapErr, hf,
      reconstructedAddr, Err.root, bind, Except.bind, pure, Except.pure,
      parsePubKey_serializeCompressed hkr,
      parsePubKey_serializeCompressed hks,
      parsePubKey_serializeCompressed hkd]
  | some fk =>
    rw [hf] at hfam
    simp [fetchAddr, fetchAddrByTaprootOutputKeyQ, dbAfterInsertM, addrRowOf,
      findWithIdx, joinAddrRow, rowByID, fetchGenesisQ, wrapErr, hf,
      reconstructedAddr, Err.root, bind, Except.bind, pure, Except.pure,
      parsePubKey_serializeCompressed hkr,
      parsePubKey_serializeCompressed hks,
      parsePubKey_serializeCompressed hkd,
      parsePubKey_serializeCompressed hfam]

theorem queryAddrs_dbAfterInsertM (t : TaroAddressBook) (a : AddrWithKeyInfo)
    (mf : Option Int) (hv : a.keysValidB = true)
    (hts : GoTime.zero.sec ≤ a.creationTime.sec ∧
      a.creationTime.sec ≤ maxInt64) :
    t.queryAddrs (dbAfterInsertM a mf) QueryParams.default =
      .ok [{ reconstructedAddr t.params a with
              taprootOutputKey := ⟨a.taprootOutputKey.x, false⟩
              managedAfter :=
                match mf with
                | some s => ⟨s, 0⟩
                | none => GoTime.zero }] := by
  simp only [AddrWithKeyInfo.keysValidB, Bool.and_eq_true] at hv
  obtain ⟨⟨⟨⟨⟨hks, hki⟩, hkr⟩, hko⟩, hkd⟩, hfam⟩ := hv
  obtain ⟨hts1, hts2⟩ := hts
  simp only [GoTime.zero, maxInt64] at hts1 hts2
  norm_num at hts1 hts2
  cases hf : a.taro.familyKey with
  | none =>
    simp [TaroAddressBook.queryAddrs, QueryParams.default, GoTime.isZero,
      GoTime.unix, fetchAddrsRows, dbAfterInsertM, addrRowOf, joinAddrRow,
      rowByID, fetchGenesisQ, wrapErr, hf, reconstructedAddr, mapExcept,
      addrRowToAddr, bind, Except.bind, pure, Except.pure, hts1, hts2,
      GoTime.zero, maxInt64, parsePubKey_serializeCompressed hkr,
      parsePubKey_serializeCompressed hks,
      parsePubKey_serializeCompressed hkd,
      schnorrParse_schnorrSerialize hko]
  | some fk =>
    rw [hf] at hfam
    simp [TaroAddressBook.queryAddrs, QueryParams.default, GoTime.isZero,
      GoTime.unix, fetchAddrsRows, dbAfterInsertM, addrRowOf, joinAddrRow,
      rowByID, fetchGenesisQ, wrapErr, hf, reconstructedAddr, mapExcept,
      addrRowToAddr, bind, Except.bind, pure, Except.pure, hts1, hts2,
      GoTime.zero, maxInt64, parsePubKey_serializeCompressed hkr,
      parsePubKey_serializeCompressed hks,
      parsePubKey_serializeCompressed hkd,
      parsePubKey_serializeCompressed hfam,
      schnorrParse_schnorrSerialize hko]

/-! ## Claim C2 -/

/-- The round-trip property of claim C2 for one inserted address: both fetch
paths return a record equal to the input up to one-second timestamps. -/
def RoundTripHolds (t : TaroAddressBook) (a : AddrWithKeyInfo) : Prop :=
  ∃ a1 a2,
    t.addrByTaprootOutput (t.insertAddrs DB.empty [a]).2 a.taprootOutputKey =
      .ok a1 ∧
    eqUpToSecond a1 a ∧
    t.queryAddrs (t.insertAddrs DB.empty [a]).2 QueryParams.default =
      .ok [a2] ∧
    eqUpToSecond a2 a

/-- Claim C2: for every valid address inserted via `InsertAddrs`, both
`AddrByTaprootOutput` (queried with the address's taproot output key) and
`QueryAddrs` (with default parameters) return a record equal to the inserted
address in every field, except that timestamps need only agree at one-second
resolution. -/
theorem spec_c2_round_trip (t : TaroAddressBook) (a : AddrWithKeyInfo)
    (h : insertReady t a = true) : RoundTripHolds t a := by
  simp only [insertReady, Bool.and_eq_true, decide_eq_true_eq] at h
  obtain ⟨⟨⟨⟨⟨⟨hv, hne⟩, hint⟩, hodd⟩, hman⟩, hcp⟩, hts⟩ := h
  have hdb : (t.insertAddrs DB.empty [a]).2 = dbAfterInsertM a none := by
    rw [insertAddrs_empty t a hne]
  refine ⟨reconstructedAddr t.params a,
    { reconstructedAddr t.params a with
        taprootOutputKey := ⟨a.taprootOutputKey.x, false⟩ }, ?_, ?_, ?_, ?_⟩
  · rw [TaroAddressBook.addrByTaprootOutput, hdb]
    exact fetchAddr_dbAfterInsertM t.params a none hv
  · refine ⟨rfl, ?_⟩
    simp [reconstructedAddr, ← hint, ← hcp, hman]
  · rw [hdb]
    exact queryAddrs_dbAfterInsertM t a none hv hts
  · refine ⟨rfl, ?_⟩
    simp [reconstructedAddr, ← hint, ← hcp, hman, PubKey.eta_even hodd]

/-- Witness for C2 at a concrete valid address. -/
theorem spec_c2_round_trip_witness :
    insertReady bookW addrW = true ∧ RoundTripHolds bookW addrW :=
  ⟨by decide, spec_c2_round_trip bookW addrW (by decide)⟩

/-! ## Claim C5 -/

theorem findWithIdx_eq_none {p : α → Bool} {l : List α}
    (h : ∀ x ∈ l, p x = false) : ∀ i, findWithIdx p l i = none := by
  induction l with
  | nil => intro i; rfl
  | cons x xs ih =>
    intro i
    have hx := h x (List.mem_cons_self x xs)
    simp [findWithIdx, hx]
    exact ih (fun y hy => h y (List.mem_cons_of_mem x hy)) (i + 1)

/-- Claim C5: for every taproot output key for which no address is stored,
`AddrByTaprootOutput` fails with the domain-level `ErrNoAddr` signal (not a
generic storage not-found error); for every stored address it succeeds. -/
theorem spec_c5_err_no_addr :
    (∀ (t : TaroAddressBook) (db : DB) (k : PubKey),
      (∀ r ∈ db.addrs, r.taprootOutputKey ≠ schnorrSerialize k) →
      t.addrByTaprootOutput db k = .error Err.errNoAddr) ∧
    (∀ (t : TaroAddressBook) (a : AddrWithKeyInfo), insertReady t a = true →
      ∃ a1, t.addrByTaprootOutput (t.insertAddrs DB.empty [a]).2
        a.taprootOutputKey = .ok a1) := by
  constructor
  · intro t db k hne
    have hf : findWithIdx (fun r => r.taprootOutputKey = schnorrSerialize k)
        db.addrs 0 = none :=
      findWithIdx_eq_none (fun x hx => by simp [hne x hx]) 0
    simp [TaroAddressBook.addrByTaprootOutput, fetchAddr,
      fetchAddrByTaprootOutputKeyQ, hf, Err.root]
  · intro t a h
    simp only [insertReady, Bool.and_eq_true, decide_eq_true_eq] at h
    obtain ⟨⟨⟨⟨⟨⟨hv, hne⟩, hint⟩, hodd⟩, hman⟩, hcp⟩, hts⟩ := h
    have hdb : (t.insertAddrs DB.empty [a]).2 = dbAfterInsertM a none := by
      rw [insertAddrs_empty t a hne]
    rw [TaroAddressBook.addrByTaprootOutput, hdb]
    exact ⟨reconstructedAddr t.params a, fetchAddr_dbAfterInsertM t.params a none hv⟩

/-- Witness for C5: a miss on the empty store signals `ErrNoAddr`; a stored
concrete address is found. -/
theorem spec_c5_err_no_addr_witness :
    bookW.addrByTaprootOutput DB.empty addrW.taprootOutputKey =
      .error Err.errNoAddr ∧
    (∃ a1, bookW.addrByTaprootOutput
      (bookW.insertAddrs DB.empty [addrW]).2 addrW.taprootOutputKey =
        .ok a1) :=
  ⟨spec_c5_err_no_addr.1 bookW DB.empty addrW.taprootOutputKey (by decide),
    spec_c5_err_no_addr.2 bookW addrW (by decide)⟩

/-! ## Claim C9 -/

theorem setAddrManaged_dbAfterInsertM (t : TaroAddressBook)
    (a : AddrWithKeyInfo) (mt : GoTime) :
    t.setAddrManaged (dbAfterInsertM a none) a mt =
      (.ok (), dbAfterInsertM a (some mt.sec)) := by
  simp [TaroAddressBook.setAddrManaged, setAddrManagedQ, dbAfterInsertM,
    addrRowOf, findWithIdx, updateAt]

/-- The managed-visibility property of claim C9: after marking the stored
address managed, the by-key fetch still reports a zero managed-after
timestamp while the query path reports the managed-from value. -/
def ManagedVisibility (t : TaroAddressBook) (a : AddrWithKeyInfo)
    (mt : GoTime) : Prop :=
  (∃ a1, t.addrByTaprootOutput
      (t.setAddrManaged (t.insertAddrs DB.empty [a]).2 a mt).2
      a.taprootOutputKey = .ok a1 ∧ a1.managedAfter = GoTime.zero) ∧
  (∃ a2, t.queryAddrs
      (t.setAddrManaged (t.insertAddrs DB.empty [a]).2 a mt).2
      QueryParams.default = .ok [a2] ∧ a2.managedAfter = ⟨mt.sec, 0⟩)

/-- Claim C9: for every stored address, `AddrByTaprootOutput` returns the
address with its managed-after timestamp always unset (the zero time), even
when the address has been marked managed via `SetAddrManaged`; only
`QueryAddrs` populates the managed-from value on returned records. -/
theorem spec_c9_managed_after_unset (t : TaroAddressBook)
    (a : AddrWithKeyInfo) (mt : GoTime) (h : insertReady t a = true) :
    ManagedVisibility t a mt := by
  simp only [insertReady, Bool.and_eq_true, decide_eq_true_eq] at h
  obtain ⟨⟨⟨⟨⟨⟨hv, hne⟩, hint⟩, hodd⟩, hman⟩, hcp⟩, hts⟩ := h
  have hdb : (t.insertAddrs DB.empty [a]).2 = dbAfterInsertM a none := by
    rw [insertAddrs_empty t a hne]
  have hdb1 : (t.setAddrManaged (t.insertAddrs DB.empty [a]).2 a mt).2 =
      dbAfterInsertM a (some mt.sec) := by
    rw [hdb, setAddrManaged_dbAfterInsertM]
  constructor
  · refine ⟨reconstructedAddr t.params a, ?_, rfl⟩
    rw [TaroAddressBook.addrByTaprootOutput, hdb1]
    exact fetchAddr_dbAfterInsertM t.params a (some mt.sec) hv
  · refine ⟨{ reconstructedAddr t.params a with
        taprootOutputKey := ⟨a.taprootOutputKey.x, false⟩
        managedAfter := ⟨mt.sec, 0⟩ }, ?_, rfl⟩
    rw [hdb1]
    exact queryAddrs_dbAfterInsertM t a (some mt.sec) hv hts

/-- Witness for C9 at a concrete managed address. -/
theorem spec_c9_managed_after_unset_witness :
    insertReady bookW addrW = true ∧ ManagedVisibility bookW addrW ⟨300, 7⟩ :=
  ⟨by decide, spec_c9_managed_after_unset bookW addrW ⟨300, 7⟩ (by decide)⟩

/-! ## Claim C3 -/

theorem addrs_upsertGenesisPointQ (db : DB) (x : List Nat) :
    ((upsertGenesisPointQ db x).2).addrs = db.addrs := by
  unfold upsertGenesisPointQ
  rcases h : findWithIdx (fun r => r = x) db.genesisPoints 0 with _ | ⟨i, y⟩ <;>
    simp [h]

theorem addrs_upsertGenesisQ (db : DB) (pid : Nat) (g : Genesis) :
    ((upsertGenesisQ db pid g).2).addrs = db.addrs := by
  unfold upsertGenesisQ
  rcases h : findWithIdx (fun r => r.2 = g) db.genesisAssets 0 with _ | ⟨i, y⟩ <;>
    simp [h]

theorem addrs_upsertInternalKeyQ (db : DB) (k : List Nat) (f i : Int) :
    ((upsertInternalKeyQ db k f i).2).addrs = db.addrs := by
  unfold upsertInternalKeyQ
  rcases h : findWithIdx (fun r => r.rawKey = k) db.internalKeys 0 with
    _ | ⟨j, y⟩ <;> simp [h]

theorem addrs_upsertScriptKeyQ (db : DB) (ik : Nat) (tk tw : List Nat) :
    ((upsertScriptKeyQ db ik tk tw).2).addrs = db.addrs := by
  unfold upsertScriptKeyQ
  rcases h : findWithIdx (fun r => r.tweakedScriptKey = tk) db.scriptKeys 0 with
    _ | ⟨j, y⟩ <;> simp [h]

theorem insertAddrQ_dup {db : DB} {row : AddrRow}
    (h : findWithIdx (fun r => r.taprootOutputKey = row.taprootOutputKey)
      db.addrs 0 ≠ none) :
    insertAddrQ db row = .error .constraintViolation := by
  unfold insertAddrQ
  rw [if_neg]
  rintro ⟨h1, h2⟩
  exact h h2

theorem insertAddrsLoop_dup (db : DB) (b : AddrWithKeyInfo)
    (rest : List AddrWithKeyInfo)
    (hdup : findWithIdx (fun r => r.taprootOutputKey =
        schnorrSerialize b.taprootOutputKey) db.addrs 0 ≠ none) :
    insertAddrsLoop db (b :: rest) = .error (.wrapped .constraintViolation) := by
  rcases hgp : upsertGenesisPointQ db
      (encodeOutpoint b.taro.genesis.firstPrevOut) with ⟨gpid, db1⟩
  have hdb1 : db1.addrs = db.addrs := by
    have h := addrs_upsertGenesisPointQ db
      (encodeOutpoint b.taro.genesis.firstPrevOut)
    rw [hgp] at h
    exact h
  rcases hg : upsertGenesisQ db1 gpid b.taro.genesis with ⟨gid, db2⟩
  have hdb2 : db2.addrs = db.addrs := by
    have h := addrs_upsertGenesisQ db1 gpid b.taro.genesis
    rw [hg] at h
    rw [← hdb1]
    exact h
  rcases hik : insertInternalKey db2 b.scriptKeyTweak.rawKey with ⟨rskid, db3⟩
  have hdb3 : db3.addrs = db.addrs := by
    have h := addrs_upsertInternalKeyQ db2
      (serializeCompressed b.scriptKeyTweak.rawKey.pubKey)
      b.scriptKeyTweak.rawKey.family b.scriptKeyTweak.rawKey.index
    rw [insertInternalKey] at hik
    rw [hik] at h
    rw [← hdb2]
    exact h
  rcases hsk : upsertScriptKeyQ db3 rskid
      (serializeCompressed b.taro.scriptKey) b.scriptKeyTweak.tweak with
    ⟨skid, db4⟩
  have hdb4 : db4.addrs = db.addrs := by
    have h := addrs_upsertScriptKeyQ db3 rskid
      (serializeCompressed b.taro.scriptKey) b.scriptKeyTweak.tweak
    rw [hsk] at h
    rw [← hdb3]
    exact h
  rcases hik2 : insertInternalKey db4 b.internalKeyDesc with ⟨tkid, db5⟩
  have hdb5 : db5.addrs = db.addrs := by
    have h := addrs_upsertInternalKeyQ db4
      (serializeCompressed b.internalKeyDesc.pubKey)
      b.internalKeyDesc.family b.internalKeyDesc.index
    rw [insertInternalKey] at hik2
    rw [hik2] at h
    rw [← hdb4]
    exact h
  have hins : insertAddrQ db5
      { version := b.taro.version
        genesisAssetID := gid
        famKey := b.taro.familyKey.map serializeCompressed
        scriptKeyID := skid
        taprootKeyID := tkid
        taprootOutputKey := schnorrSerialize b.taprootOutputKey
        amount := b.taro.amount
        assetType := b.taro.genesis.assetType
        creationTime := b.creationTime.sec
        managedFrom := none } = .error .constraintViolation := by
    apply insertAddrQ_dup
    rw [hdb5]
    exact hdup
  rw [insertAddrsLoop]
  simp only [hgp, hg, hik, hsk, hik2, hins]

/-- The duplicate-key failure of claim C3: re-inserting an address whose
taproot output key is already stored fails with a constraint error and leaves
the store unchanged. -/
def DupInsertFails (t : TaroAddressBook) (a b : AddrWithKeyInfo) : Prop :=
  t.insertAddrs (t.insertAddrs DB.empty [a]).2 [b] =
    (.error (.wrapped .constraintViolation), (t.insertAddrs DB.empty [a]).2)

/-- Claim C3: inserting a second address with an already stored taproot
output key fails with a constraint error and adds no row; and an
`InsertAddrs` batch is all-or-nothing: when it fails, the store is exactly as
before the call. -/
theorem spec_c3_unique_taproot_key :
    (∀ (t : TaroAddressBook) (a b : AddrWithKeyInfo),
      insertReady t a = true →
      schnorrSerialize b.taprootOutputKey = schnorrSerialize a.taprootOutputKey →
      DupInsertFails t a b) ∧
    (∀ (t : TaroAddressBook) (db : DB) (addrs : List AddrWithKeyInfo) (e : Err),
      (t.insertAddrs db addrs).1 = .error e → (t.insertAddrs db addrs).2 = db) := by
  constructor
  · intro t a b ha hkey
    simp only [insertReady, Bool.and_eq_true, decide_eq_true_eq] at ha
    obtain ⟨⟨⟨⟨⟨⟨hv, hne⟩, hint⟩, hodd⟩, hman⟩, hcp⟩, hts⟩ := ha
    have hdb : (t.insertAddrs DB.empty [a]).2 = dbAfterInsertM a none := by
      rw [insertAddrs_empty t a hne]
    have hdup : findWithIdx (fun r => r.taprootOutputKey =
        schnorrSerialize b.taprootOutputKey) (dbAfterInsertM a none).addrs 0 ≠
        none := by
      simp [dbAfterInsertM, addrRowOf, findWithIdx, hkey]
    rw [DupInsertFails, hdb, TaroAddressBook.insertAddrs,
      insertAddrsLoop_dup _ b [] hdup]
  · intro t db addrs e h
    rw [TaroAddressBook.insertAddrs] at h ⊢
    cases hm : insertAddrsLoop db addrs with
    | ok db' => rw [hm] at h; simp at h
    | error e' => rfl

/-- Witness for C3: the concrete duplicate fails and a concrete failing batch
leaves the store empty. -/
theorem spec_c3_unique_taproot_key_witness :
    DupInsertFails bookW addrW addrW2 ∧
    (bookW.insertAddrs DB.empty [addrW, addrW2]).2 = DB.empty :=
  ⟨spec_c3_unique_taproot_key.1 bookW addrW addrW2 (by decide) (by decide),
    spec_c3_unique_taproot_key.2 bookW DB.empty [addrW, addrW2]
      (.wrapped .constraintViolation) (by decide)⟩

/-! ## Claim C8 -/

theorem fetchAddrsRows_sentinel (db : DB) (ca off lim : Int) (um : Bool)
    (hb : ∀ r ∈ db.addrs, r.creationTime ≤ maxInt64) :
    fetchAddrsRows db ca maxInt64 off lim um =
      fetchAddrsRowsNoUpperBound db ca off lim um := by
  unfold fetchAddrsRows fetchAddrsRowsNoUpperBound
  have hfil : db.addrs.filter (fun r =>
      ca ≤ r.creationTime ∧ r.creationTime ≤ maxInt64 ∧
        (um = false ∨ r.managedFrom = none)) =
      db.addrs.filter (fun r =>
        ca ≤ r.creationTime ∧ (um = false ∨ r.managedFrom = none)) := by
    apply List.filter_congr
    intro x hx
    have hbx := hb x hx
    simp only [decide_eq_decide]
    tauto
  rw [hfil]

/-- Claim C8: for every query in which the `createdBefore` parameter is unset
(the zero time), `QueryAddrs` substitutes an unbounded-future sentinel so that
the `createdBefore` bound never excludes any (representable) row: the result
equals that of the same query with no upper creation-time bound. -/
theorem spec_c8_created_before_sentinel (t : TaroAddressBook) (db : DB)
    (params : QueryParams) (hz : params.createdBefore.isZero = true)
    (hb : ∀ r ∈ db.addrs, r.creationTime ≤ maxInt64) :
    t.queryAddrs db params = t.queryAddrsNoUpperBound db params := by
  rw [TaroAddressBook.queryAddrs, TaroAddressBook.queryAddrsNoUpperBound]
  simp only [hz, if_true, GoTime.unix]
  rw [fetchAddrsRows_sentinel db params.createdAfter.sec params.offset
    (if params.limit ≠ 0 then params.limit else -1) params.unmanagedOnly hb]

/-- Witness for C8 on a concrete store with one address. -/
theorem spec_c8_created_before_sentinel_witness :
    QueryParams.default.createdBefore.isZero = true ∧
    bookW.queryAddrs (bookW.insertAddrs DB.empty [addrW]).2
        QueryParams.default =
      bookW.queryAddrsNoUpperBound (bookW.insertAddrs DB.empty [addrW]).2
        QueryParams.default :=
  ⟨by decide,
    spec_c8_created_before_sentinel bookW (bookW.insertAddrs DB.empty [addrW]).2
      QueryParams.default (by decide) (by decide)⟩

/-! ## Claim C10 -/

/-- Claim C10: `GetOrCreateEvent` requires `outputIdx` to be a valid index
into `walletTx.OutputDetails`: under that precondition the unchecked indexing
is safe and the call returns (with an error or an event), and for any call
violating it the operation panics (index out of range) instead of returning
an error. -/
theorem spec_c10_output_index_panic (t : TaroAddressBook) (db : DB)
    (status : Int) (addr : AddrWithKeyInfo) (walletTx : WalletTx)
    (outputIdx : Nat) (sib : Option Nat) (now : Int) :
    (outputIdx < walletTx.outputDetails.length →
      ∃ r, t.getOrCreateEvent db status addr walletTx outputIdx sib now =
        .ok r) ∧
    (walletTx.outputDetails.length ≤ outputIdx →
      t.getOrCreateEvent db status addr walletTx outputIdx sib now =
        .panic) := by
  constructor
  · intro hlt
    obtain ⟨od, hod⟩ : ∃ od,
        walletTx.outputDetails.get? outputIdx = some od := by
      cases h : walletTx.outputDetails.get? outputIdx with
      | none =>
        rw [List.get?_eq_none] at h
        omega
      | some od => exact ⟨od, rfl⟩
    rw [TaroAddressBook.getOrCreateEvent, hod]
    exact ⟨_, rfl⟩
  · intro hle
    rw [TaroAddressBook.getOrCreateEvent, List.get?_eq_none.mpr hle]

/-- Witness for C10: an in-range index returns, an out-of-range index
panics, on concrete inputs. -/
theorem spec_c10_output_index_panic_witness :
    (∃ r, bookW.getOrCreateEvent (bookW.insertAddrs DB.empty [addrW]).2 0
      addrW txW 1 (some 77) 500 = .ok r) ∧
    bookW.getOrCreateEvent (bookW.insertAddrs DB.empty [addrW]).2 0
      addrW txW 5 (some 77) 500 = .panic :=
  ⟨(spec_c10_output_index_panic bookW (bookW.insertAddrs DB.empty [addrW]).2 0
      addrW txW 1 (some 77) 500).1 (by decide),
    (spec_c10_output_index_panic bookW (bookW.insertAddrs DB.empty [addrW]).2 0
      addrW txW 5 (some 77) 500).2 (by decide)⟩

/-! ## Claim C4 -/

/-- Claim C4: for every status code outside the valid set
{TransactionDetected, TransactionConfirmed, Completed}, creating an event via
`GetOrCreateEvent` with that status fails with a constraint-violation error
at the storage boundary, the store is rolled back unchanged and no event row
is written. -/
theorem spec_c4_status_domain (t : TaroAddressBook) (db : DB) (status : Int)
    (addr : AddrWithKeyInfo) (walletTx : WalletTx) (outputIdx : Nat)
    (sib : Option Nat) (now : Int) (hs : isValidStatus status = false)
    (hidx : outputIdx < walletTx.outputDetails.length) :
    t.getOrCreateEvent db status addr walletTx outputIdx sib now =
      .ok (.error (Err.wrapped Err.constraintViolation), db) ∧
    (Err.wrapped Err.constraintViolation).root = Err.constraintViolation := by
  obtain ⟨od, hod⟩ : ∃ od,
      walletTx.outputDetails.get? outputIdx = some od := by
    cases h : walletTx.outputDetails.get? outputIdx with
    | none =>
      rw [List.get?_eq_none] at h
      omega
    | some od => exact ⟨od, rfl⟩
  refine ⟨?_, rfl⟩
  rw [TaroAddressBook.getOrCreateEvent, hod]
  simp [upsertAddrEventQ, hs]

/-- Witness for C4 at the concrete invalid status 4. -/
theorem spec_c4_status_domain_witness :
    isValidStatus 4 = false ∧
    bookW.getOrCreateEvent (bookW.insertAddrs DB.empty [addrW]).2 4 addrW
        txW 1 none 500 =
      .ok (.error (Err.wrapped Err.constraintViolation),
        (bookW.insertAddrs DB.empty [addrW]).2) :=
  ⟨by decide,
    (spec_c4_status_domain bookW (bookW.insertAddrs DB.empty [addrW]).2 4
      addrW txW 1 none 500 (by decide) (by decide)).1⟩

/-! ## Claim C7 -/

/-- The store of one concrete address. -/
def dbW1 : DB := (bookW.insertAddrs DB.empty [addrW]).2

/-- The store of one concrete address with one detected event on output 1 of
the concrete wallet transaction. -/
def dbWE : DB :=
  match bookW.getOrCreateEvent dbW1 0 addrW txW 1 (some 77) 500 with
  | .ok (_, db) => db
  | .panic => DB.empty

/-- Counterexample to claim C7 as stated: on a store holding one address and
one event, an all-zero 32-byte key filter returns no events, while an empty
key filter (no filter) does return the stored event — the two do not behave
alike. -/
theorem spec_c7_counterexample :
    bookW.queryAddrEvents dbWE ⟨List.replicate 32 0, none, none⟩ = .ok [] ∧
    bookW.queryAddrEvents dbWE ⟨[], none, none⟩ ≠
      bookW.queryAddrEvents dbWE ⟨List.replicate 32 0, none, none⟩ := by
  decide

/-- Claim C7 (amended): an empty (zero-length) key filter behaves as if there
were no key filter, with unset status bounds defaulting to the full
[TransactionDetected, Completed] range; a non-empty key filter — including an
all-zero 32-byte one — is passed through as a literal key filter on the
stored taproot output key bytes. -/
theorem spec_c7_empty_key_filter (t : TaroAddressBook) (db : DB)
    (params : EventQueryParams) :
    (params.addrTaprootOutputKey = [] →
      t.queryAddrEvents db params = t.queryAddrEventsNoKeyFilter db params) ∧
    (params.addrTaprootOutputKey ≠ [] →
      buildEventQuery params =
        { addrTaprootKey := some params.addrTaprootOutputKey
          statusFrom :=
            match params.statusFrom with
            | some s => s
            | none => StatusTransactionDetected
          statusTo :=
            match params.statusTo with
            | some s => s
            | none => StatusCompleted }) := by
  obtain ⟨key, sf, st⟩ := params
  constructor
  · intro hk
    simp only at hk
    subst hk
    rw [TaroAddressBook.queryAddrEvents, TaroAddressBook.queryAddrEventsNoKeyFilter]
    cases sf <;> cases st <;> rfl
  · intro hk
    simp only at hk
    have hlen : 0 < key.length := by
      cases key with
      | nil => exact absurd rfl hk
      | cons a l => simp
    cases sf <;> cases st <;> simp [buildEventQuery, hlen]

/-- Witness for the amended C7 on the concrete event store. -/
theorem spec_c7_empty_key_filter_witness :
    (bookW.queryAddrEvents dbWE ⟨[], none, none⟩ =
      bookW.queryAddrEventsNoKeyFilter dbWE ⟨[], none, none⟩) ∧
    buildEventQuery ⟨List.replicate 32 0, none, none⟩ =
      { addrTaprootKey := some (List.replicate 32 0)
        statusFrom := StatusTransactionDetected
        statusTo := StatusCompleted } :=
  ⟨(spec_c7_empty_key_filter bookW dbWE ⟨[], none, none⟩).1 rfl,
    (spec_c7_empty_key_filter bookW dbWE
      ⟨List.replicate 32 0, none, none⟩).2 (by decide)⟩

/-! ## Claim C1 -/

/-- The chain-transaction row `GetOrCreateEvent` upserts for a wallet
transaction. -/
def chainTxRowOf (tx : WalletTx) : ChainTxRow :=
  { txid := natToBytesLE 32 tx.txHash
    rawTx := tx.rawBytes
    blockHeight := if 0 < tx.confirmations then some tx.blockHeight else none
    blockHash :=
      if 0 < tx.confirmations then some (natToBytesLE 32 tx.blockHash)
      else none }

/-- The managed-UTXO row `GetOrCreateEvent` upserts for one call. -/
def utxoRowOf (a : AddrWithKeyInfo) (tx : WalletTx) (idx : Nat)
    (sib : Option Nat) (od : OutputDetail) : ManagedUTXORow :=
  { rawKey := serializeCompressed a.taro.internalKey
    outpoint := encodeOutpoint ⟨tx.txHash, idx⟩
    amtSats := od.amount
    tapscriptSibling := sib.map (natToBytesLE 32)
    taroRoot := taroCommitmentRoot a sib
    txnID := 1 }

/-- The event row held after calls of `GetOrCreateEvent` for one key on the
one-address store. -/
def eventRowOf (s : Int) (tx : WalletTx) (idx : Nat) (now : Int) :
    AddrEventRow :=
  { creationTime := now
    addrID := 1
    status := s
    txid := natToBytesLE 32 tx.txHash
    outputIndex := Int.ofNat idx
    managedUtxoID := 1
    assetProofID := none
    assetID := none }

/-- The store after a `GetOrCreateEvent` call on the one-address store. -/
def dbAfterEvent (a : AddrWithKeyInfo) (tx : WalletTx) (idx : Nat) (s : Int)
    (sib : Option Nat) (now : Int) (od : OutputDetail) : DB :=
  { dbAfterInsertM a none with
      chainTxs := [chainTxRowOf tx]
      managedUtxos := [utxoRowOf a tx idx sib od]
      addrEvents := [eventRowOf s tx idx now] }

/-- The event record a `GetOrCreateEvent` call returns on the one-address
store. -/
def eventOf (a : AddrWithKeyInfo) (tx : WalletTx) (idx : Nat) (s : Int)
    (sib : Option Nat) (now : Int) (od : OutputDetail) : AddrEvent :=
  { id := 1
    creationTime := ⟨now, 0⟩
    addr := a
    status := s
    outpoint := ⟨tx.txHash, idx⟩
    amt := od.amount
    internalKey := a.taro.internalKey
    tapscriptSibling := sib.map (natToBytesLE 32)
    confirmationHeight := if 0 < tx.confirmations then tx.blockHeight else 0
    hasProof := false }

theorem getOrCreate_first (t : TaroAddressBook) (a : AddrWithKeyInfo)
    (tx : WalletTx) (idx : Nat) (s : Int) (sib : Option Nat) (now : Int)
    (od : OutputDetail) (hv : a.keysValidB = true)
    (hs : isValidStatus s = true)
    (hod : tx.outputDetails.get? idx = some od) (htx : tx.txHash < 2 ^ 256) :
    t.getOrCreateEvent (dbAfterInsertM a none) s a tx idx sib now =
      .ok (.ok (eventOf a tx idx s sib now od),
        dbAfterEvent a tx idx s sib now od) := by
  simp only [AddrWithKeyInfo.keysValidB, Bool.and_eq_true] at hv
  obtain ⟨⟨⟨⟨⟨hks, hki⟩, hkr⟩, hko⟩, hkd⟩, hfam⟩ := hv
  rw [TaroAddressBook.getOrCreateEvent, hod]
  by_cases hc : 0 < tx.confirmations <;>
    simp [upsertChainTxQ, upsertManagedUTXOQ, upsertAddrEventQ, hs, hc,
      dbAfterInsertM, addrRowOf, findWithIdx, rowByID, fetchEvent,
      fetchAddrEventQ, wrapErr, bind, Except.bind, pure, Except.pure,
      dbAfterEvent, eventOf, eventRowOf, utxoRowOf, chainTxRowOf,
      parsePubKey_serializeCompressed hki, newHash_natToBytesLE htx]

theorem getOrCreate_second (t : TaroAddressBook) (a : AddrWithKeyInfo)
    (tx : WalletTx) (idx : Nat) (s1 : Int) (sib1 : Option Nat) (now1 : Int)
    (od : OutputDetail) (s2 : Int) (sib2 : Option Nat) (now2 : Int)
    (hv : a.keysValidB = true) (hs2 : isValidStatus s2 = true)
    (hod : tx.outputDetails.get? idx = some od) (htx : tx.txHash < 2 ^ 256) :
    t.getOrCreateEvent (dbAfterEvent a tx idx s1 sib1 now1 od) s2 a tx idx
        sib2 now2 =
      .ok (.ok (eventOf a tx idx s2 sib2 now1 od),
        dbAfterEvent a tx idx s2 sib2 now1 od) := by
  simp only [AddrWithKeyInfo.keysValidB, Bool.and_eq_true] at hv
  obtain ⟨⟨⟨⟨⟨hks, hki⟩, hkr⟩, hko⟩, hkd⟩, hfam⟩ := hv
  rw [TaroAddressBook.getOrCreateEvent, hod]
  by_cases hc : 0 < tx.confirmations <;>
    simp [upsertChainTxQ, upsertManagedUTXOQ, upsertAddrEventQ, hs2, hc,
      dbAfterInsertM, addrRowOf, findWithIdx, rowByID, fetchEvent,
      fetchAddrEventQ, wrapErr, bind, Except.bind, pure, Except.pure,
      dbAfterEvent, eventOf, eventRowOf, utxoRowOf, chainTxRowOf, updateAt,
      parsePubKey_serializeCompressed hki, newHash_natToBytesLE htx]

/-- The idempotent-upsert property of claim C1: both calls succeed, the
second returns the same logical event (same id) carrying the second call's
status, tapscript sibling, confirmation height and wallet-output amount, and
the store ends with exactly one event row for the key, updated in place
(creation time still that of the first call), linked to the single managed
UTXO re-derived by the second call. -/
def IdempotentUpsert (t : TaroAddressBook) (a : AddrWithKeyInfo)
    (tx : WalletTx) (idx : Nat) (s1 s2 : Int) (sib1 sib2 : Option Nat)
    (now1 now2 : Int) (od : OutputDetail) : Prop :=
  ∃ e1 db1 e2 db2,
    t.getOrCreateEvent (t.insertAddrs DB.empty [a]).2 s1 a tx idx sib1 now1 =
      .ok (.ok e1, db1) ∧
    t.getOrCreateEvent db1 s2 a tx idx sib2 now2 = .ok (.ok e2, db2) ∧
    e2.id = e1.id ∧
    e2.status = s2 ∧
    e2.tapscriptSibling = Option.map (natToBytesLE 32) sib2 ∧
    e2.confirmationHeight =
      (if 0 < tx.confirmations then tx.blockHeight else 0) ∧
    e2.amt = od.amount ∧
    db2.addrEvents = [eventRowOf s2 tx idx now1] ∧
    db2.managedUtxos = [utxoRowOf a tx idx sib2 od]

/-- Claim C1: calling `GetOrCreateEvent` twice with the same (address taproot
output key, txid, output index) but different status and tapscript sibling
yields exactly one logical event for that key, and the event returned by the
second call has the status, confirmation height, and UTXO linkage supplied by
the second call — the upsert updates in place rather than creating a
duplicate. -/
theorem spec_c1_idempotent_event_upsert (t : TaroAddressBook)
    (a : AddrWithKeyInfo) (tx : WalletTx) (idx : Nat) (s1 s2 : Int)
    (sib1 sib2 : Option Nat) (now1 now2 : Int) (od : OutputDetail)
    (h : insertReady t a = true) (hs1 : isValidStatus s1 = true)
    (hs2 : isValidStatus s2 = true)
    (hod : tx.outputDetails.get? idx = some od)
    (htx : tx.txHash < 2 ^ 256) :
    IdempotentUpsert t a tx idx s1 s2 sib1 sib2 now1 now2 od := by
  have hv : a.keysValidB = true := by
    simp only [insertReady, Bool.and_eq_true] at h
    exact h.1.1.1.1.1.1
  have hne : serializeCompressed a.scriptKeyTweak.rawKey.pubKey ≠
      serializeCompressed a.internalKeyDesc.pubKey := by
    simp only [insertReady, Bool.and_eq_true, decide_eq_true_eq] at h
    exact h.1.1.1.1.1.2
  have hdb : (t.insertAddrs DB.empty [a]).2 = dbAfterInsertM a none := by
    rw [insertAddrs_empty t a hne]
  refine ⟨eventOf a tx idx s1 sib1 now1 od, dbAfterEvent a tx idx s1 sib1 now1 od,
    eventOf a tx idx s2 sib2 now1 od, dbAfterEvent a tx idx s2 sib2 now1 od,
    ?_, ?_, rfl, rfl, rfl, rfl, rfl, rfl, rfl⟩
  · rw [hdb]
    exact getOrCreate_first t a tx idx s1 sib1 now1 od hv hs1 hod htx
  · exact getOrCreate_second t a tx idx s1 sib1 now1 od s2 sib2 now2 hv hs2
      hod htx

/-- Witness for C1 at concrete inputs: detected then confirmed status, a
sibling then none. -/
theorem spec_c1_idempotent_event_upsert_witness :
    IdempotentUpsert bookW addrW txW 1 0 1 (some 77) none 500 600
      ⟨2000, false⟩ :=
  spec_c1_idempotent_event_upsert bookW addrW txW 1 0 1 (some 77) none 500 600
    ⟨2000, false⟩ (by decide) (by decide) (by decide) (by decide) (by decide)

/-! ## Claim C6 -/

/-- The store after completing the single event: the proof row present, the
event row carrying the completion status and the asset/proof links. -/
def dbCompleted (a : AddrWithKeyInfo) (tx : WalletTx) (idx : Nat) (s : Int)
    (sib : Option Nat) (now : Int) (od : OutputDetail) (pid aid : Nat) : DB :=
  { dbAfterEvent a tx idx s sib now od with
      assetProofs := [⟨serializeCompressed a.taro.scriptKey, pid, aid⟩]
      addrEvents := [{ eventRowOf s tx idx now with
        assetProofID := some pid
        assetID := some aid }] }

theorem getOrCreate_completed (t : TaroAddressBook) (a : AddrWithKeyInfo)
    (tx : WalletTx) (idx : Nat) (s1 : Int) (sib1 : Option Nat) (now : Int)
    (od : OutputDetail) (pid aid : Nat) (s2 : Int) (sib2 : Option Nat)
    (now2 : Int) (hv : a.keysValidB = true) (hs2 : isValidStatus s2 = true)
    (hod : tx.outputDetails.get? idx = some od) (htx : tx.txHash < 2 ^ 256) :
    t.getOrCreateEvent (dbCompleted a tx idx s1 sib1 now od pid aid) s2 a tx
        idx sib2 now2 =
      .ok (.ok { eventOf a tx idx s2 sib2 now od with hasProof := true },
        dbCompleted a tx idx s2 sib2 now od pid aid) := by
  simp only [AddrWithKeyInfo.keysValidB, Bool.and_eq_true] at hv
  obtain ⟨⟨⟨⟨⟨hks, hki⟩, hkr⟩, hko⟩, hkd⟩, hfam⟩ := hv
  rw [TaroAddressBook.getOrCreateEvent, hod]
  by_cases hc : 0 < tx.confirmations <;>
    simp [upsertChainTxQ, upsertManagedUTXOQ, upsertAddrEventQ, hs2, hc,
      dbAfterInsertM, addrRowOf, findWithIdx, rowByID, fetchEvent,
      fetchAddrEventQ, wrapErr, bind, Except.bind, pure, Except.pure,
      dbCompleted, dbAfterEvent, eventOf, eventRowOf, utxoRowOf,
      chainTxRowOf, updateAt, parsePubKey_serializeCompressed hki,
      newHash_natToBytesLE htx]

/-- The completion-dependency property of claim C6 on the one-address,
one-event store: the event created by `GetOrCreateEvent` carries no
asset/proof linkage; completing it without a stored proof fails with the
not-found error and changes nothing; completing it once a proof row exists
for the address script key succeeds, setting the new status and the
asset/proof links on the one event row; and a later `GetOrCreateEvent` call
preserves the linkage rather than writing it. -/
def CompletionDependency (t : TaroAddressBook) (a : AddrWithKeyInfo)
    (tx : WalletTx) (idx : Nat) (s1 : Int) (sib : Option Nat) (now : Int)
    (od : OutputDetail) (s' : Int) (pid aid : Nat) (s2 : Int)
    (sib2 : Option Nat) (now2 : Int) : Prop :=
  (eventOf a tx idx s1 sib now od).hasProof = false ∧
  (∀ r ∈ (dbAfterEvent a tx idx s1 sib now od).addrEvents,
    r.assetProofID = none ∧ r.assetID = none) ∧
  (∃ e, t.completeEvent (dbAfterEvent a tx idx s1 sib now od)
      (eventOf a tx idx s1 sib now od) s'
      (eventOf a tx idx s1 sib now od).outpoint =
    (.error e, dbAfterEvent a tx idx s1 sib now od) ∧ e.root = .noRows) ∧
  t.completeEvent
      { dbAfterEvent a tx idx s1 sib now od with
          assetProofs := [⟨serializeCompressed a.taro.scriptKey, pid, aid⟩] }
      (eventOf a tx idx s1 sib now od) s'
      (eventOf a tx idx s1 sib now od).outpoint =
    (.ok (), dbCompleted a tx idx s' sib now od pid aid) ∧
  t.getOrCreateEvent (dbCompleted a tx idx s' sib now od pid aid) s2 a tx idx
      sib2 now2 =
    .ok (.ok { eventOf a tx idx s2 sib2 now od with hasProof := true },
      dbCompleted a tx idx s2 sib2 now od pid aid)

/-- Claim C6: `CompleteEvent` fails (leaving the event unchanged) when no
asset proof exists for the event's address script key; when a proof exists it
succeeds, updating the event's status and anchor outpoint and linking the
resolved asset and proof identifiers; and this is the only operation that
attaches asset/proof linkage to an event. -/
theorem spec_c6_completion_dependency (t : TaroAddressBook)
    (a : AddrWithKeyInfo) (tx : WalletTx) (idx : Nat) (s1 : Int)
    (sib : Option Nat) (now : Int) (od : OutputDetail) (s' : Int)
    (pid aid : Nat) (s2 : Int) (sib2 : Option Nat) (now2 : Int)
    (hv : a.keysValidB = true) (hs' : isValidStatus s' = true)
    (hs2 : isValidStatus s2 = true)
    (hod : tx.outputDetails.get? idx = some od) (htx : tx.txHash < 2 ^ 256) :
    CompletionDependency t a tx idx s1 sib now od s' pid aid s2 sib2 now2 := by
  refine ⟨rfl, ?_, ?_, ?_, ?_⟩
  · intro r hr
    simp only [dbAfterEvent, dbAfterInsertM, List.mem_singleton] at hr
    subst hr
    exact ⟨rfl, rfl⟩
  · refine ⟨.wrapped .noRows, ?_, rfl⟩
    simp [TaroAddressBook.completeEvent, fetchAssetProofQ, findWithIdx,
      dbAfterEvent, dbAfterInsertM, wrapErr]
  · simp [TaroAddressBook.completeEvent, fetchAssetProofQ, findWithIdx,
      dbAfterEvent, dbAfterInsertM, dbCompleted, addrRowOf, eventOf,
      eventRowOf, upsertAddrEventQ, hs', updateAt, rowByID, wrapErr]
  · exact getOrCreate_completed t a tx idx s' sib now od pid aid s2 sib2 now2
      hv hs2 hod htx

/-- Witness for C6 at concrete inputs. -/
theorem spec_c6_completion_dependency_witness :
    CompletionDependency bookW addrW txW 1 0 (some 77) 500 ⟨2000, false⟩ 2
      42 43 1 none 600 :=
  spec_c6_completion_dependency bookW addrW txW 1 0 (some 77) 500
    ⟨2000, false⟩ 2 42 43 1 none 600 (by decide) (by decide) (by decide)
    (by decide) (by decide)

end Taro
